import Mathlib

/-!
Verification development for the `cloudfront-nextjs` GitHub Action
(`src/action.ts`): a one-shot reconciler that bundles a CloudFront
origin-request Lambda from the Next.js route manifests, uploads it when its
digest changed, binds it to the distribution default cache behavior, and
optionally invalidates cached paths and awaits deployment.

The development shallowly embeds the decision logic of `action.ts`:
JSON values and the `normalize` key-sort canonicalization, the synthesized
routing script and its route-matching handler, the `uploadLambda`
reconciliation over a small model of the remote Lambda service, the
`updateCloudFront` binder, the `invalidateCloudFront` step, the
`awaitPublish` / `awaitDeployment` pollers (including their promise
settlement behavior), and the `run` pipeline with its effect trace.
-/

namespace CFAction

/-- JSON values as produced by `JSON.parse`: objects keep their field order
(insertion order), arrays keep element order.  This is the data model for the
routes/pages manifests read by `bundleLambda`. -/
inductive JsVal where
  | null : JsVal
  | bool (b : Bool) : JsVal
  | num (n : Int) : JsVal
  | str (s : String) : JsVal
  | arr (elems : List JsVal) : JsVal
  | obj (fields : List (String × JsVal)) : JsVal

/-- Lexicographic comparison of character lists by code point; this models the
default JavaScript `Array.prototype.sort()` string comparison used on
`Object.keys(obj).sort()` (which compares code units; identical on the
manifest keys that occur, all of which are BMP strings). -/
def charListLe : List Char → List Char → Bool
  | [], _ => true
  | _ :: _, [] => false
  | a :: as, b :: bs =>
    if a < b then true else if b < a then false else charListLe as bs

/-- String comparison via the underlying character lists. -/
def strLe (a b : String) : Bool := charListLe a.data b.data

theorem charListLe_total : ∀ as bs, charListLe as bs = true ∨ charListLe bs as = true := by
  intro as
  induction as with
  | nil => intro bs; left; rfl
  | cons a as ih =>
    intro bs
    cases bs with
    | nil => right; rfl
    | cons b bs =>
      rcases lt_trichotomy a b with hab | hab | hab
      · left; simp [charListLe, hab]
      · subst hab
        rcases ih bs with h | h
        · left; simp [charListLe, lt_irrefl, h]
        · right; simp [charListLe, lt_irrefl, h]
      · right; simp [charListLe, hab]

theorem charListLe_trans :
    ∀ as bs cs, charListLe as bs = true → charListLe bs cs = true →
      charListLe as cs = true := by
  intro as
  induction as with
  | nil => intro bs cs _ _; rfl
  | cons a as ih =>
    intro bs cs h1 h2
    cases bs with
    | nil => simp [charListLe] at h1
    | cons b bs =>
      cases cs with
      | nil => simp [charListLe] at h2
      | cons c cs =>
        by_cases hab : a < b
        · by_cases hbc : b < c
          · simp [charListLe, lt_trans hab hbc]
          · by_cases hcb : c < b
            · simp [charListLe, hcb, not_lt_of_lt hcb] at h2
            · have hbc' : b = c := le_antisymm (not_lt.mp hcb) (not_lt.mp hbc)
              subst hbc'
              simp [charListLe, hab]
        · by_cases hba : b < a
          · simp [charListLe, hab, hba] at h1
          · have hab' : a = b := le_antisymm (not_lt.mp hba) (not_lt.mp hab)
            subst hab'
            simp only [charListLe, if_neg (lt_irrefl a)] at h1
            by_cases hac : a < c
            · simp [charListLe, hac]
            · by_cases hca : c < a
              · simp [charListLe, hca, not_lt_of_lt hca] at h2
              · have hac' : a = c := le_antisymm (not_lt.mp hca) (not_lt.mp hac)
                subst hac'
                simp only [charListLe, if_neg (lt_irrefl a)] at h2 ⊢
                exact ih _ _ h1 h2

/-- Ordering of object entries by key, as used by
`Object.keys(obj).sort().reduce(...)` in `normalize`. -/
def keyLE (p q : String × JsVal) : Prop := strLe p.1 q.1 = true

instance : DecidableRel keyLE := fun p q =>
  inferInstanceAs (Decidable (strLe p.1 q.1 = true))

instance : IsTotal (String × JsVal) keyLE :=
  ⟨fun a b => charListLe_total a.1.data b.1.data⟩

instance : IsTrans (String × JsVal) keyLE :=
  ⟨fun _ _ _ h1 h2 => charListLe_trans _ _ _ h1 h2⟩

/-- Sorting an object entry list by key: the Lean rendering of
`Object.keys(obj).sort()` followed by rebuilding the object in that key
order.  (A JavaScript object has pairwise-distinct keys, so reading the value
for each sorted key is the same as sorting the entry list by key.) -/
def sortPairs (l : List (String × JsVal)) : List (String × JsVal) :=
  List.insertionSort keyLE l

/-- The index-string/element pairs of an array, i.e. `Object.keys` of a
JavaScript array together with the indexed elements. -/
def enumPairs (es : List JsVal) : List (String × JsVal) :=
  ((List.range es.length).map (fun i => toString i)).zip es

/-- The typeof-object-and-not-null test of `normalize`: arrays and objects are recursed into, everything else (including
`null`) is copied as-is. -/
def isRec : JsVal → Bool
  | .arr _ => true
  | .obj _ => true
  | _ => false

mutual
/-- Number of `JsVal` nodes, ignoring keys; termination measure for the
canonicalization functions. -/
def jsize : JsVal → Nat
  | .arr es => 1 + jsizeList es
  | .obj fs => 1 + jsizePairs fs
  | _ => 1

def jsizeList : List JsVal → Nat
  | [] => 0
  | v :: vs => 1 + jsize v + jsizeList vs

def jsizePairs : List (String × JsVal) → Nat
  | [] => 0
  | p :: ps => 1 + jsize p.2 + jsizePairs ps
end

theorem jsize_pos : ∀ v, 0 < jsize v := by
  intro v
  cases v <;> simp only [jsize] <;> omega

theorem jsizePairs_eq_sum (l : List (String × JsVal)) :
    jsizePairs l = (l.map (fun p => 1 + jsize p.2)).sum := by
  induction l with
  | nil => rfl
  | cons p ps ih => simp [jsizePairs, ih]

theorem jsizePairs_sortPairs (l : List (String × JsVal)) :
    jsizePairs (sortPairs l) = jsizePairs l := by
  rw [jsizePairs_eq_sum, jsizePairs_eq_sum]
  exact ((List.perm_insertionSort keyLE l).map (fun p => 1 + jsize p.2)).sum_eq

theorem jsizePairs_zip (ks : List String) :
    ∀ es : List JsVal, ks.length = es.length →
      jsizePairs (ks.zip es) = jsizeList es := by
  induction ks with
  | nil =>
    intro es h
    cases es with
    | nil => rfl
    | cons v vs => simp at h
  | cons k ks ih =>
    intro es h
    cases es with
    | nil => simp at h
    | cons v vs =>
      have h' : ks.length = vs.length := by simpa using h
      calc jsizePairs ((k :: ks).zip (v :: vs))
          = 1 + jsize v + jsizePairs (ks.zip vs) := rfl
        _ = 1 + jsize v + jsizeList vs := by rw [ih vs h']
        _ = jsizeList (v :: vs) := rfl

theorem jsizePairs_enumPairs (es : List JsVal) :
    jsizePairs (enumPairs es) = jsizeList es := by
  unfold enumPairs
  exact jsizePairs_zip _ es (by simp)

theorem jsize_lt_of_mem_pairs {p : String × JsVal} {l : List (String × JsVal)}
    (h : p ∈ l) : jsize p.2 ≤ jsizePairs l := by
  induction l with
  | nil => cases h
  | cons q qs ih =>
    rcases List.mem_cons.mp h with h | h
    · subst h; simp only [jsizePairs]; omega
    · have := ih h
      simp only [jsizePairs]
      omega

mutual
/-- The `normalize` function of `action.ts`: `Object.keys(obj).sort()` then a
`reduce` that rebuilds a plain object in sorted key order, recursing into
every property value that is a non-null object (in JavaScript this includes
arrays, whose keys are their index strings).  Scalars are returned unchanged
(`normalize` is only ever applied to parsed JSON). -/
def normalize : JsVal → JsVal
  | .obj fs => .obj (normalizePairs (sortPairs fs))
  | .arr es => .obj (normalizePairs (sortPairs (enumPairs es)))
  | v => v
termination_by v => 2 * jsize v
decreasing_by
  · simp only [jsizePairs_sortPairs, jsize]; omega
  · simp only [jsizePairs_sortPairs, jsizePairs_enumPairs, jsize]; omega

/-- The body of the `reduce` accumulator: one entry per sorted key. -/
def normalizePairs : List (String × JsVal) → List (String × JsVal)
  | [] => []
  | (k, w) :: rest =>
    (k, if isRec w then normalize w else w) :: normalizePairs rest
termination_by l => 2 * jsizePairs l + 1
decreasing_by
  · simp only [jsizePairs]; omega
  · simp only [jsizePairs]; omega
end

mutual
/-- Content view of a JSON value: object keys are recursively sorted exactly
as `normalize` sorts them, but arrays stay arrays in element order.  Two
values have identical content up to object-key insertion order precisely when
their `canon` forms are equal. -/
def canon : JsVal → JsVal
  | .obj fs => .obj (canonPairs (sortPairs fs))
  | .arr es => .arr (canonList es)
  | v => v
termination_by v => 2 * jsize v
decreasing_by
  · simp only [jsizePairs_sortPairs, jsize]; omega
  · simp only [jsize]; omega

def canonPairs : List (String × JsVal) → List (String × JsVal)
  | [] => []
  | (k, w) :: rest =>
    (k, if isRec w then canon w else w) :: canonPairs rest
termination_by l => 2 * jsizePairs l + 1
decreasing_by
  · simp only [jsizePairs]; omega
  · simp only [jsizePairs]; omega

def canonList : List JsVal → List JsVal
  | [] => []
  | w :: rest => (if isRec w then canon w else w) :: canonList rest
termination_by l => 2 * jsizeList l + 1
decreasing_by
  · simp only [jsizeList]; omega
  · simp only [jsizeList]; omega
end

/-- Normalization of a single property value. -/
def normEntry (w : JsVal) : JsVal := if isRec w then normalize w else w

/-- Content view of a single property value. -/
def canonEntry (w : JsVal) : JsVal := if isRec w then canon w else w

/-- Mapping a function over the values of an entry list, keys unchanged. -/
def mapSnd (f : JsVal → JsVal) (l : List (String × JsVal)) :
    List (String × JsVal) :=
  l.map (fun p => (p.1, f p.2))

theorem normalizePairs_eq (l : List (String × JsVal)) :
    normalizePairs l = mapSnd normEntry l := by
  induction l with
  | nil => simp [normalizePairs, mapSnd]
  | cons p rest ih =>
    cases p with
    | mk k w => simp [normalizePairs, mapSnd, normEntry] at ih ⊢; exact ih

theorem canonPairs_eq (l : List (String × JsVal)) :
    canonPairs l = mapSnd canonEntry l := by
  induction l with
  | nil => simp [canonPairs, mapSnd]
  | cons p rest ih =>
    cases p with
    | mk k w => simp [canonPairs, mapSnd, canonEntry] at ih ⊢; exact ih

theorem canonList_eq (l : List JsVal) : canonList l = l.map canonEntry := by
  induction l with
  | nil => simp [canonList]
  | cons w rest ih => simp [canonList, canonEntry, ih]

theorem sortPairs_mapSnd (g : JsVal → JsVal) (l : List (String × JsVal)) :
    sortPairs (mapSnd g l) = mapSnd g (sortPairs l) := by
  unfold sortPairs mapSnd
  exact (List.map_insertionSort keyLE keyLE (fun p => (p.1, g p.2)) l
    (fun a _ b _ => Iff.rfl)).symm

theorem sortPairs_idem (l : List (String × JsVal)) :
    sortPairs (sortPairs l) = sortPairs l :=
  (List.sorted_insertionSort keyLE l).insertionSort_eq

theorem zip_mapSnd (g : JsVal → JsVal) :
    ∀ (ks : List String) (es : List JsVal),
      ks.zip (es.map g) = mapSnd g (ks.zip es) := by
  intro ks
  induction ks with
  | nil => intro es; cases es <;> rfl
  | cons k ks ih =>
    intro es
    cases es with
    | nil => rfl
    | cons v vs =>
      show (k, g v) :: ks.zip (vs.map g) = (k, g v) :: mapSnd g (ks.zip vs)
      rw [ih vs]

theorem enumPairs_mapSnd (g : JsVal → JsVal) (es : List JsVal) :
    enumPairs (es.map g) = mapSnd g (enumPairs es) := by
  unfold enumPairs
  rw [List.length_map, zip_mapSnd]

theorem mapSnd_mapSnd (f g : JsVal → JsVal) (l : List (String × JsVal)) :
    mapSnd f (mapSnd g l) = mapSnd (fun v => f (g v)) l := by
  unfold mapSnd
  rw [List.map_map]
  rfl

theorem isRec_canon (v : JsVal) : isRec (canon v) = isRec v := by
  cases v <;> simp [canon, isRec]

theorem canon_arr (es : List JsVal) : canon (.arr es) = .arr (canonList es) := by
  simp [canon]

theorem canon_obj (fs : List (String × JsVal)) :
    canon (.obj fs) = .obj (canonPairs (sortPairs fs)) := by
  simp [canon]

theorem normalize_arr (es : List JsVal) :
    normalize (.arr es) = .obj (normalizePairs (sortPairs (enumPairs es))) := by
  simp [normalize]

theorem normalize_obj (fs : List (String × JsVal)) :
    normalize (.obj fs) = .obj (normalizePairs (sortPairs fs)) := by
  simp [normalize]

/-- Normalization only depends on the content of a JSON value: re-normalizing
after the content projection `canon` changes nothing. -/
theorem normalize_canon : ∀ v, normalize (canon v) = normalize v := by
  suffices h : ∀ n v, jsize v ≤ n → normalize (canon v) = normalize v by
    exact fun v => h (jsize v) v le_rfl
  intro n
  induction n with
  | zero =>
    intro v h
    exact absurd h (by have := jsize_pos v; omega)
  | succ n ih =>
    intro v hv
    have pointwise :
        ∀ l : List (String × JsVal), jsizePairs l ≤ n →
          mapSnd (fun w => normEntry (canonEntry w)) l = mapSnd normEntry l := by
      intro l hl
      unfold mapSnd
      apply List.map_congr_left
      intro p hp
      have hle : jsize p.2 ≤ jsizePairs l := jsize_lt_of_mem_pairs hp
      cases hrec : isRec p.2 with
      | false => simp [canonEntry, hrec]
      | true =>
        simp only [canonEntry, normEntry, hrec, if_true, isRec_canon]
        rw [ih p.2 (by omega)]
    cases v with
    | null => simp [canon]
    | bool b => simp [canon]
    | num m => simp [canon]
    | str s => simp [canon]
    | arr es =>
      have hsz : jsizeList es ≤ n := by
        simp only [jsize] at hv; omega
      rw [canon_arr, normalize_arr, normalize_arr, canonList_eq,
        enumPairs_mapSnd, sortPairs_mapSnd, normalizePairs_eq,
        normalizePairs_eq, mapSnd_mapSnd]
      rw [pointwise _ (by rw [jsizePairs_sortPairs, jsizePairs_enumPairs]; exact hsz)]
    | obj fs =>
      have hsz : jsizePairs fs ≤ n := by
        simp only [jsize] at hv; omega
      rw [canon_obj, normalize_obj, normalize_obj, canonPairs_eq,
        sortPairs_mapSnd, sortPairs_idem, normalizePairs_eq,
        normalizePairs_eq, mapSnd_mapSnd]
      rw [pointwise _ (by rw [jsizePairs_sortPairs]; exact hsz)]

/-- Escaping of one character inside a JSON string literal (quote and
backslash; the manifest strings contain no control characters). -/
def escapeChar (c : Char) : String :=
  if c = Char.ofNat 34 then "\\" ++ "\""
  else if c = Char.ofNat 92 then "\\" ++ "\\"
  else String.singleton c

/-- Model of the JavaScript string-literal rendering inside `JSON.stringify`. -/
def escapeString (s : String) : String :=
  String.join (s.data.map escapeChar)

mutual
/-- Model of `JSON.stringify` (no spacing argument): the serialization applied
to the normalized manifests in `bundleLambda`. -/
def stringify : JsVal → String
  | .null => "null"
  | .bool true => "true"
  | .bool false => "false"
  | .num n => toString n
  | .str s => "\"" ++ escapeString s ++ "\""
  | .arr es => "[" ++ stringifyList es ++ "]"
  | .obj fs => "\x7b" ++ stringifyPairs fs ++ "\x7d"

def stringifyList : List JsVal → String
  | [] => ""
  | [v] => stringify v
  | v :: rest => stringify v ++ "," ++ stringifyList rest

def stringifyPairs : List (String × JsVal) → String
  | [] => ""
  | [p] => "\"" ++ escapeString p.1 ++ "\":" ++ stringify p.2
  | p :: rest =>
    "\"" ++ escapeString p.1 ++ "\":" ++ stringify p.2 ++ "," ++ stringifyPairs rest
end

/-- A single-quote character, used when transcribing the JavaScript template
strings. -/
def sq : String := String.singleton (Char.ofNat 39)

/-- The fixed `LAMBDA_FN` routing template of `action.ts`, embedded verbatim
into every synthesized script. -/
def LAMBDA_FN : String :=
  "\nexports.handler = async (event) => \x7b\n" ++
  "  const request = event.Records[0].cf.request;\n" ++
  "  const uri = request.uri;\n\n" ++
  "  // Function to remove /pages prefix\n" ++
  "  const removePagesPrefix = (path) => \x7b\n" ++
  "    return path.replace(" ++ sq ++ "pages/" ++ sq ++ ", " ++ sq ++ "/" ++ sq ++ ");\n" ++
  "  \x7d;\n\n" ++
  "  // Find matching route, ensuring route.regex is present\n" ++
  "  const matchedRoute = combinedRoutes.find((route) => \x7b\n" ++
  "    if (!route.regex) return false;\n" ++
  "    const regex = new RegExp(route.regex);\n" ++
  "    return regex.test(uri) && !!pagesManifest[route.page];\n" ++
  "  \x7d);\n\n" ++
  "  if (matchedRoute) \x7b\n" ++
  "    request.uri = removePagesPrefix(pagesManifest[matchedRoute.page]);\n" ++
  "    return request;\n" ++
  "  \x7d\n\n" ++
  "  return request;\n" ++
  "\x7d;\n"

/-- The fixed Lambda runtime identifier. -/
def RUNTIME : String := "nodejs18.x"

/-- The script synthesized by `bundleLambda`: a header, both manifests
canonicalized by `normalize` and serialized by `JSON.stringify`, the
`combinedRoutes` declaration (dynamic before static), and the fixed
`LAMBDA_FN` template.  The archive uploaded to Lambda contains exactly this
one file, so two equal scripts yield byte-identical payloads and digests. -/
def originRequestScript (pkgName pkgVersion githubRepository distributionId : String)
    (routesManifestVal pagesManifestVal : JsVal) : String :=
  let routesManifest := stringify (normalize routesManifestVal)
  let pagesManifest := stringify (normalize pagesManifestVal)
  "\n/*\n* This script is managed by the " ++ pkgName ++ "@" ++ pkgVersion ++
  " GitHub Action.\n*\n*     GitHub Repository: " ++ githubRepository ++
  "\n*     Distrubition ID: " ++ distributionId ++
  "\n*     Runtime: " ++ RUNTIME ++
  "\n*     Purpose: CloudFront Origin Request for Next.js\n*/\n" ++
  "const routesManifest = " ++ routesManifest ++ ";\n\n" ++
  "const pagesManifest = " ++ pagesManifest ++ ";\n\n" ++
  "// Combine dynamic and static routes into a single array in the global scope, ensuring they exist or defaulting to empty arrays\n" ++
  "const combinedRoutes = [\n" ++
  "    ...(routesManifest.dynamicRoutes || []),\n" ++
  "    ...(routesManifest.staticRoutes || []),\n" ++
  "];\n\n" ++
  LAMBDA_FN ++ "\n    "

/-- One entry of the route manifest: a page identifier and an optional
regular-expression source. -/
structure Route where
  page : String
  regex : Option String
deriving DecidableEq

/-- Own-property lookup in the pages manifest object. -/
def pageLookup (pages : List (String × String)) (k : String) : Option String :=
  (pages.find? (fun p => p.1 == k)).map (fun p => p.2)

/-- Truthiness of `pagesManifest[route.page]`: the property exists and its
value is a non-empty string. -/
def pageTruthy (pages : List (String × String)) (k : String) : Bool :=
  match pageLookup pages k with
  | some v => v != ""
  | none => false

/-- The predicate of the `find` callback in `LAMBDA_FN`: the route has a
(truthy) regex source, the regex matches the URI, and the route page resolves
to a truthy entry of the pages manifest.  The regex engine itself is an
external collaborator, supplied as the `test` function. -/
def routeMatches (test : String → String → Bool)
    (pages : List (String × String)) (uri : String) (r : Route) : Bool :=
  match r.regex with
  | none => false
  | some rx => if rx = "" then false else test rx uri && pageTruthy pages r.page

/-- The `combinedRoutes` declaration: dynamic routes before static routes. -/
def combinedRoutes (dyn stat : List Route) : List Route := dyn ++ stat

/-- The `combinedRoutes.find(...)` call of the routing handler. -/
def findMatchedRoute (test : String → String → Bool) (dyn stat : List Route)
    (pages : List (String × String)) (uri : String) : Option Route :=
  (combinedRoutes dyn stat).find? (routeMatches test pages uri)

/-- Replacement of the first occurrence of a pattern, as JavaScript
`String.prototype.replace` with a string pattern does. -/
def replaceFirst (s pat rep : String) : String :=
  match s.splitOn pat with
  | [] => s
  | [_] => s
  | x :: rest => x ++ rep ++ String.intercalate pat rest

/-- The `removePagesPrefix` helper of the routing template. -/
def removePages (path : String) : String := replaceFirst path "pages/" "/"

/-- The full request handler of the routing template: rewrite the URI from
the first matching route, or return it unchanged. -/
def handleRequest (test : String → String → Bool) (dyn stat : List Route)
    (pages : List (String × String)) (uri : String) : String :=
  match findMatchedRoute test dyn stat pages uri with
  | some r => removePages ((pageLookup pages r.page).getD "")
  | none => uri

theorem find?_first {α : Type} (p : α → Bool) :
    ∀ (l : List α) (x : α), l.find? p = some x →
      ∃ i, l.get? i = some x ∧ p x = true ∧
        ∀ j y, j < i → l.get? j = some y → p y = false := by
  intro l
  induction l with
  | nil => intro x h; simp at h
  | cons a rest ih =>
    intro x h
    cases hpa : p a with
    | true =>
      rw [List.find?_cons_of_pos _ hpa] at h
      obtain rfl : a = x := Option.some.inj h
      exact ⟨0, rfl, hpa, fun j y hj _ => absurd hj (by omega)⟩
    | false =>
      rw [List.find?_cons_of_neg _ (by simp [hpa])] at h
      obtain ⟨i, hget, hpx, hbefore⟩ := ih x h
      refine ⟨i + 1, hget, hpx, fun j y hj hgy => ?_⟩
      cases j with
      | zero =>
        obtain rfl : a = y := Option.some.inj hgy
        exact hpa
      | succ j => exact hbefore j y (by omega) hgy

theorem find?_append_left {α : Type} (p : α → Bool) :
    ∀ (l₁ l₂ : List α), (∃ d, d ∈ l₁ ∧ p d = true) →
      ∃ d, d ∈ l₁ ∧ (l₁ ++ l₂).find? p = some d := by
  intro l₁
  induction l₁ with
  | nil =>
    rintro l₂ ⟨d, hd, _⟩
    cases hd
  | cons a rest ih =>
    rintro l₂ ⟨d, hd, hp⟩
    cases hpa : p a with
    | true =>
      exact ⟨a, List.mem_cons_self a rest,
        by rw [List.cons_append, List.find?_cons_of_pos _ hpa]⟩
    | false =>
      have hd' : d ∈ rest := by
        rcases List.mem_cons.mp hd with h | h
        · subst h; rw [hpa] at hp; cases hp
        · exact h
      obtain ⟨d', hmem, hfind⟩ := ih l₂ ⟨d, hd', hp⟩
      exact ⟨d', List.mem_cons_of_mem a hmem,
        by rw [List.cons_append, List.find?_cons_of_neg _ (by simp [hpa])]; exact hfind⟩

/-- A JavaScript `Error` value: its `name`, `message`, and optional `cause`. -/
inductive JsError where
  | mk (name message : String) (cause : Option JsError)

def JsError.name : JsError → String
  | .mk n _ _ => n

def JsError.message : JsError → String
  | .mk _ m _ => m

/-- Model of `new Error(message, with cause)`. -/
def wrapError (message : String) (cause : JsError) : JsError :=
  .mk "Error" message (some cause)

/-- Model of `new Error(message)` with no cause. -/
def plainError (message : String) : JsError := .mk "Error" message none

/-- The service error raised when a looked-up function does not exist. -/
def notFoundError : JsError :=
  .mk "ResourceNotFoundException" "Function not found" none

/-- Response shape of `GetFunctionCommand` as read by `uploadLambda`. -/
structure FnConfigResp where
  FunctionArn : Option String
  CodeSha256 : Option String

structure GetFunctionResponse where
  Configuration : Option FnConfigResp

/-- Remote function state: the code digest the service reports for the
unpublished `$LATEST` pointer and the digest of the most recently published
version. -/
structure LambdaFn where
  arn : String
  latestSha : String
  publishedSha : String

/-- Remote Lambda service state for the one function the action manages. -/
structure LambdaState where
  fn : Option LambdaFn

/-- Model of `GetFunctionCommand`: a missing function yields
`ResourceNotFoundException`; otherwise the reported `CodeSha256` is resolved
from the requested qualifier: `$LATEST` (or no qualifier) reports the
unpublished pointer digest, any other (version) qualifier reports the
published digest. -/
def LambdaState.getFunction (st : LambdaState) (qualifier : Option String) :
    Except JsError GetFunctionResponse :=
  match st.fn with
  | none => .error notFoundError
  | some f =>
    let sha :=
      match qualifier with
      | none => f.latestSha
      | some q => if q = "$LATEST" then f.latestSha else f.publishedSha
    .ok ⟨some ⟨some f.arn, some sha⟩⟩

/-- ARN the service assigns when the function is created. -/
def mkFunctionArn (functionName : String) : String :=
  "arn:aws:lambda:us-east-1:000000000000:function:" ++ functionName

/-- The remote calls the action can issue, as recorded in effect traces. -/
inductive RemoteCall where
  | getFunction (functionName : String) (qualifier : Option String)
  | updateFunctionCode (functionName : String) (publish : Bool)
  | createFunction (functionName roleArn runtime : String) (publish : Bool)
  | addPermission (functionName principal statementId : String)
  | getDistributionConfig (id : String)
  | updateDistribution (id etag : String)
  | createInvalidation (id path : String)
  | getDistribution (id : String)
deriving DecidableEq

/-- Result record of `uploadLambda`. -/
structure UploadResult where
  functionArn : String
  codeSha : String
  changed : Bool
deriving DecidableEq

/-- JavaScript whitespace characters recognized by `String.prototype.trim`
(the ones relevant to base64 digests and logs). -/
def isJsSpace (c : Char) : Bool :=
  (c == Char.ofNat 32) || (c == Char.ofNat 9) || (c == Char.ofNat 10) ||
    (c == Char.ofNat 13) || (c == Char.ofNat 12) || (c == Char.ofNat 11)

/-- Model of JavaScript `String.prototype.trim`. -/
def jsTrim (s : String) : String :=
  ⟨((s.data.dropWhile isJsSpace).reverse.dropWhile isJsSpace).reverse⟩

/-- The `uploadLambda` reconciliation of `action.ts`, given the transport
result of its one `GetFunctionCommand` lookup (the honest lookup is supplied
by `uploadLambdaRun`).  Returns the reconciliation result and the updated
service state, paired with the trace of remote calls issued.  The service is
modelled as reporting, for uploaded code, the same digest the local `sha256`
helper computes on the same bytes (both are SHA-256-base64 of the archive).
JavaScript truthiness makes the response validations treat an empty-string
`FunctionArn` or `CodeSha256` as missing. -/
def uploadLambda (sha256 : List Nat → String) (fnNamePre roleArn : String)
    (zip : List Nat) (lookup : Except JsError GetFunctionResponse)
    (st : LambdaState) :
    Except JsError (UploadResult × LambdaState) × List RemoteCall :=
  let functionName := fnNamePre ++ "origin-request"
  let localSha := sha256 zip
  let lookupCall := RemoteCall.getFunction functionName (some "$LATEST")
  let looked : Except JsError (Option (String × String)) :=
    match lookup with
    | .error e =>
      if e.name = "ResourceNotFoundException" then .ok none else .error e
    | .ok resp =>
      match resp.Configuration with
      | none => .error (plainError "Invalid GetFunctionCommand response")
      | some cfg =>
        match cfg.FunctionArn, cfg.CodeSha256 with
        | some arn, some sha =>
          if arn = "" ∨ sha = "" then
            .error (plainError
              "FunctionArn or CodeSha256 was missing from the GetFunctionCommand response")
          else .ok (some (arn, sha))
        | _, _ =>
          .error (plainError
            "FunctionArn or CodeSha256 was missing from the GetFunctionCommand response")
  match looked with
  | .error e =>
    (.error (wrapError "Error uploading Lambda Function" e), [lookupCall])
  | .ok none =>
    if mkFunctionArn functionName = "" ∨ localSha = "" then
      (.error (wrapError "Error uploading Lambda Function"
          (plainError "FunctionArn was missing from the CreateFunctionCommand response")),
        [lookupCall, .createFunction functionName roleArn RUNTIME true])
    else
      (.ok (⟨mkFunctionArn functionName, localSha, true⟩,
          ⟨some ⟨mkFunctionArn functionName, localSha, localSha⟩⟩),
        [lookupCall, .createFunction functionName roleArn RUNTIME true])
  | .ok (some (functionArn, remoteSha)) =>
    if jsTrim localSha = jsTrim remoteSha then
      (.ok (⟨functionArn, remoteSha, false⟩, st), [lookupCall])
    else
      match st.fn with
      | some f =>
        if f.arn = "" ∨ localSha = "" then
          (.error (wrapError "Error uploading Lambda Function"
              (plainError "Invalid UpdateFunctionCodeCommand response")),
            [lookupCall, .updateFunctionCode functionName true])
        else
          (.ok (⟨f.arn, localSha, true⟩, ⟨some ⟨f.arn, localSha, localSha⟩⟩),
            [lookupCall, .updateFunctionCode functionName true])
      | none =>
        (.error (wrapError "Error uploading Lambda Function" notFoundError),
          [lookupCall, .updateFunctionCode functionName true])

/-- `uploadLambda` with the lookup it actually performs: a
`GetFunctionCommand` on the function name explicitly qualified with
`:$LATEST`. -/
def uploadLambdaRun (sha256 : List Nat → String) (fnNamePre roleArn : String)
    (zip : List Nat) (st : LambdaState) :
    Except JsError (UploadResult × LambdaState) × List RemoteCall :=
  uploadLambda sha256 fnNamePre roleArn zip (st.getFunction (some "$LATEST")) st

/-- JavaScript `a || b` on strings: the empty string is falsy. -/
def jsStringOr (s dflt : String) : String := if s = "" then dflt else s

/-- JavaScript `Boolean(s)` on a string: every non-empty string is `true`. -/
def jsBooleanOfString (s : String) : Bool := s != ""

/-- Parsing of the `wait-for-deployment` input in `run`:
the string read for `wait-for-deployment` (empty when not supplied), or-defaulted
to the string `true`, coerced by the JavaScript `Boolean` conversion. -/
def waitForDeploymentOf (input : String) : Bool :=
  jsBooleanOfString (jsStringOr input "true")

/-- Function status fields read by `awaitPublish`. -/
structure FnStatusConfig where
  State : Option String
  LastUpdateStatus : Option String

structure GetFnStatusResponse where
  Configuration : Option FnStatusConfig

/-- Settlement behavior of an awaiter promise chain.  `done` and `fatal`
settle; `lost e` means an inner recursive invocation rejected with `e` but the
rejection was dropped (the recursion runs under `.then(resolve)` with no
rejection handler, and the surrounding `try`/`catch` only catches synchronous
throws), so the outer promise never settles; `pending` means the modelled
poll trace ended while the loop was still waiting. -/
inductive AwaitOutcome (α : Type) where
  | done (a : α)
  | fatal (e : JsError)
  | lost (e : JsError)
  | pending

/-- The `awaitPublish` poller: one `GetFunctionCommand` per list element.  A
failed read on the current poll is wrapped and rejected; a not-yet-ready
status recurses after the timeout, and any rejection of that inner invocation
is dropped by the `.then(resolve)` forwarding, never settling the outer
promise. -/
def awaitPublish (functionArn : String) :
    List (Except JsError GetFnStatusResponse) → AwaitOutcome String
  | [] => .pending
  | poll :: rest =>
    match poll with
    | .error e => .fatal (wrapError "Error getting Lambda Function" e)
    | .ok resp =>
      match resp.Configuration with
      | none =>
        .fatal (wrapError "Error getting Lambda Function"
          (plainError "Invalid GetFunctionCommand response"))
      | some cfg =>
        if cfg.State = some "Active" ∧ cfg.LastUpdateStatus = some "Successful" then
          .done functionArn
        else
          match awaitPublish functionArn rest with
          | .done a => .done a
          | .fatal e => .lost e
          | .lost e => .lost e
          | .pending => .pending

/-- Distribution status fields read by `awaitDeployment`. -/
structure DistributionInfo where
  Id : Option String
  Status : Option String

structure GetDistributionResponse where
  Distribution : Option DistributionInfo

/-- The `awaitDeployment` poller, with the same promise-settlement structure
as `awaitPublish`. -/
def awaitDeployment (distributionId : String) :
    List (Except JsError GetDistributionResponse) → AwaitOutcome Unit
  | [] => .pending
  | poll :: rest =>
    match poll with
    | .error e => .fatal (wrapError "Error getting CloudFront Distribution" e)
    | .ok resp =>
      match resp.Distribution with
      | none =>
        .fatal (wrapError "Error getting CloudFront Distribution"
          (plainError "Distribution is missing properties"))
      | some d =>
        if d.Status = none ∨ d.Id = none then
          .fatal (wrapError "Error getting CloudFront Distribution"
            (plainError "Distribution is missing properties"))
        else if d.Status = some "Deployed" then
          .done ()
        else
          match awaitDeployment distributionId rest with
          | .done a => .done a
          | .fatal e => .lost e
          | .lost e => .lost e
          | .pending => .pending

/-- The `ensurePermissions` step: one `AddPermissionCommand`, treating
`ResourceConflictException` as success and rethrowing anything else. -/
def ensurePermissions (functionArn : String) (resp : Except JsError Unit) :
    Option JsError × List RemoteCall :=
  let call := RemoteCall.addPermission functionArn "edgelambda.amazonaws.com"
    "AllowCloudFrontInvoke"
  match resp with
  | .ok _ => (none, [call])
  | .error e =>
    if e.name = "ResourceConflictException" then (none, [call]) else (some e, [call])

/-- One Lambda function association of the default cache behavior. -/
structure LambdaAssocItem where
  EventType : Option String
  LambdaFunctionARN : Option String
  IncludeBody : Option Bool

structure LambdaAssociations where
  Quantity : Option Nat
  Items : Option (List LambdaAssocItem)

structure DefaultCacheBehavior where
  LambdaFunctionAssociations : Option LambdaAssociations

structure DistributionConfig where
  DefaultCacheBehavior : Option DefaultCacheBehavior

/-- Result of `GetDistributionConfigCommand`: the config and the entity tag
used for the conditional write. -/
structure GetDistConfigResult where
  DistributionConfig : Option CFAction.DistributionConfig
  ETag : Option String

/-- The association list `updateCloudFront` writes when a change is needed. -/
def desiredAssociations (functionArn : String) : LambdaAssociations :=
  ⟨some 1, some [⟨some "origin-request", some functionArn, some false⟩]⟩

/-- The no-op check of `updateCloudFront`: association present, quantity one,
exactly one item whose event type is `origin-request` and whose target ARN is
the reconciled function ARN (`IncludeBody` is not compared). -/
def associationsCurrent (lambdas : Option LambdaAssociations)
    (functionArn : String) : Bool :=
  match lambdas with
  | none => false
  | some l =>
    (l.Quantity == some 1) &&
      (match l.Items with
       | some [item] =>
         (item.EventType == some "origin-request") &&
           (item.LambdaFunctionARN == some functionArn)
       | _ => false)

/-- Outcome of one pipeline step, with the same settlement distinctions as
`AwaitOutcome`. -/
inductive StepOutcome where
  | ok
  | fatal (e : JsError)
  | lost (e : JsError)
  | pending

/-- The `updateCloudFront` binder: read the distribution config and entity
tag (failing on missing properties); if the default behavior already holds
exactly the desired association, return early without writing (this early
return also skips the deployment wait); otherwise replace the association
list, issue the conditional `UpdateDistributionCommand`, and await deployment
if requested.  Returns the outcome, the trace of config reads/writes (the
awaiter status reads are not recorded), and the distribution config after
the step. -/
def updateCloudFront (distributionId functionArn : String)
    (waitForDeployment : Bool) (resp : GetDistConfigResult)
    (updateResult : Except JsError Unit)
    (polls : List (Except JsError GetDistributionResponse)) :
    StepOutcome × List RemoteCall × GetDistConfigResult :=
  let readCall := RemoteCall.getDistributionConfig distributionId
  match resp.DistributionConfig, resp.ETag with
  | some dc, some etag =>
    match dc.DefaultCacheBehavior with
    | some dcb =>
      if associationsCurrent dcb.LambdaFunctionAssociations functionArn then
        (.ok, [readCall], resp)
      else
        match updateResult with
        | .error e =>
          (.fatal (wrapError "Error updating CloudFront Distribution" e),
            [readCall, .updateDistribution distributionId etag], resp)
        | .ok _ =>
          let newResp : GetDistConfigResult :=
            ⟨some ⟨some ⟨some (desiredAssociations functionArn)⟩⟩, resp.ETag⟩
          if waitForDeployment then
            match awaitDeployment distributionId polls with
            | .done _ =>
              (.ok, [readCall, .updateDistribution distributionId etag], newResp)
            | .fatal e =>
              (.fatal e, [readCall, .updateDistribution distributionId etag], newResp)
            | .lost e =>
              (.lost e, [readCall, .updateDistribution distributionId etag], newResp)
            | .pending =>
              (.pending, [readCall, .updateDistribution distributionId etag], newResp)
          else
            (.ok, [readCall, .updateDistribution distributionId etag], newResp)
    | none =>
      (.fatal (wrapError "Error updating CloudFront Distribution"
          (plainError "DistributionConfig is missing properties")),
        [readCall], resp)
  | _, _ =>
    (.fatal (wrapError "Error updating CloudFront Distribution"
        (plainError "DistributionConfig is missing properties")),
      [readCall], resp)

structure Invalidation where
  Id : Option String
  Status : Option String

structure CreateInvalidationResponse where
  Invalidation : Option CFAction.Invalidation

/-- The `invalidateCloudFront` step: one `CreateInvalidationCommand` for the
requested path, failing on transport errors or a malformed response, then
awaiting deployment if requested. -/
def invalidateCloudFront (distributionId path : String)
    (waitForDeployment : Bool)
    (resp : Except JsError CreateInvalidationResponse)
    (polls : List (Except JsError GetDistributionResponse)) :
    StepOutcome × List RemoteCall :=
  let call := RemoteCall.createInvalidation distributionId path
  match resp with
  | .error e =>
    (.fatal (wrapError "Error invalidating CloudFront Distribution" e), [call])
  | .ok r =>
    match r.Invalidation with
    | none =>
      (.fatal (wrapError "Error invalidating CloudFront Distribution"
          (plainError "Invalidation is missing properties")), [call])
    | some inv =>
      if inv.Id = none ∨ inv.Status = none then
        (.fatal (wrapError "Error invalidating CloudFront Distribution"
            (plainError "Invalidation is missing properties")), [call])
      else if waitForDeployment then
        match awaitDeployment distributionId polls with
        | .done _ => (.ok, [call])
        | .fatal e => (.fatal e, [call])
        | .lost e => (.lost e, [call])
        | .pending => (.pending, [call])
      else (.ok, [call])

/-- Parsing of the `invalidate` input: the string read for `invalidate`
(empty when not supplied), or-defaulted to `undefined`. -/
def parseInvalidate (input : String) : Option String :=
  if input = "" then none else some input

/-- Environment of one `run`: inputs, the local payload, the remote state,
and the transport results of each remote interaction in program order. -/
structure RunEnv where
  sha256 : List Nat → String
  fnNamePre : String
  roleArn : String
  distributionId : String
  invalidateInput : String
  waitInput : String
  zip : List Nat
  lambdaState : LambdaState
  fnPolls : List (Except JsError GetFnStatusResponse)
  permResult : Except JsError Unit
  distConfig : GetDistConfigResult
  updateDistResult : Except JsError Unit
  distPolls : List (Except JsError GetDistributionResponse)
  invalidationResult : Except JsError CreateInvalidationResponse
  invalidationPolls : List (Except JsError GetDistributionResponse)

/-- Outcome of one `run`: normal completion, rejection with an error, or a
run whose promise never settles (a lost awaiter rejection or an exhausted
poll trace). -/
inductive RunOutcome where
  | ok
  | failed (e : JsError)
  | stuck

/-- The `run` pipeline of `action.ts`: bundle (the payload is given as
`env.zip`), `uploadLambda`, `awaitPublish`, `ensurePermissions`,
`updateCloudFront`, and finally `invalidateCloudFront` exactly when the
upload reported no change and an invalidation path was supplied. -/
def runModel (env : RunEnv) : RunOutcome × List RemoteCall :=
  let wfd := waitForDeploymentOf env.waitInput
  match uploadLambdaRun env.sha256 env.fnNamePre env.roleArn env.zip
      env.lambdaState with
  | (.error e, upCalls) => (.failed e, upCalls)
  | (.ok (r, _), upCalls) =>
    match awaitPublish r.functionArn env.fnPolls with
    | .fatal e => (.failed e, upCalls)
    | .lost _ => (.stuck, upCalls)
    | .pending => (.stuck, upCalls)
    | .done arn =>
      match ensurePermissions arn env.permResult with
      | (some e, permCalls) => (.failed e, upCalls ++ permCalls)
      | (none, permCalls) =>
        match updateCloudFront env.distributionId arn wfd env.distConfig
            env.updateDistResult env.distPolls with
        | (.fatal e, cfCalls, _) => (.failed e, upCalls ++ permCalls ++ cfCalls)
        | (.lost _, cfCalls, _) => (.stuck, upCalls ++ permCalls ++ cfCalls)
        | (.pending, cfCalls, _) => (.stuck, upCalls ++ permCalls ++ cfCalls)
        | (.ok, cfCalls, _) =>
          match parseInvalidate env.invalidateInput with
          | some path =>
            if r.changed = false then
              match invalidateCloudFront env.distributionId path wfd
                  env.invalidationResult env.invalidationPolls with
              | (.ok, invCalls) =>
                (.ok, upCalls ++ permCalls ++ cfCalls ++ invCalls)
              | (.fatal e, invCalls) =>
                (.failed e, upCalls ++ permCalls ++ cfCalls ++ invCalls)
              | (.lost _, invCalls) =>
                (.stuck, upCalls ++ permCalls ++ cfCalls ++ invCalls)
              | (.pending, invCalls) =>
                (.stuck, upCalls ++ permCalls ++ cfCalls ++ invCalls)
            else (.ok, upCalls ++ permCalls ++ cfCalls)
          | none => (.ok, upCalls ++ permCalls ++ cfCalls)

theorem mapSnd_fst (f : JsVal → JsVal) (l : List (String × JsVal)) :
    (mapSnd f l).map Prod.fst = l.map Prod.fst := by
  unfold mapSnd
  rw [List.map_map]
  exact List.map_congr_left (fun p _ => rfl)

/-- C3: two route manifests and two page manifests with identical content but
different object-key insertion order (equal `canon` views) synthesize
byte-identical scripts; since the deployable payload is the deterministic
archive of this single script and the digest is a function of the payload
bytes, payloads and digests are identical as well (second conjunct, for every
composition of packaging and digest). -/
theorem c3_canonical_payload (ra rb pa pb : JsVal)
    (pkgName pkgVersion repo dist : String)
    (hr : canon ra = canon rb) (hp : canon pa = canon pb) :
    originRequestScript pkgName pkgVersion repo dist ra pa
        = originRequestScript pkgName pkgVersion repo dist rb pb ∧
      ∀ payloadDigest : String → String,
        payloadDigest (originRequestScript pkgName pkgVersion repo dist ra pa)
          = payloadDigest (originRequestScript pkgName pkgVersion repo dist rb pb) := by
  have hnr : normalize ra = normalize rb := by
    rw [← normalize_canon ra, ← normalize_canon rb, hr]
  have hnp : normalize pa = normalize pb := by
    rw [← normalize_canon pa, ← normalize_canon pb, hp]
  have hscript : originRequestScript pkgName pkgVersion repo dist ra pa
      = originRequestScript pkgName pkgVersion repo dist rb pb := by
    unfold originRequestScript
    rw [hnr, hnp]
  exact ⟨hscript, fun payloadDigest => congrArg payloadDigest hscript⟩

/-- Witness for C3 at concrete manifests: both pairs have the same entries in
opposite insertion order. -/
theorem c3_witness :
    originRequestScript "cloudfront-nextjs" "1.0.0" "scaffoldly/app" "E123"
        (.obj [("b", .num 1), ("a", .num 2)]) (.obj [("x", .str "y"), ("a", .null)])
      = originRequestScript "cloudfront-nextjs" "1.0.0" "scaffoldly/app" "E123"
        (.obj [("a", .num 2), ("b", .num 1)]) (.obj [("a", .null), ("x", .str "y")]) :=
  (c3_canonical_payload _ _ _ _ _ _ _ _
    (by simp [canon, canonPairs, sortPairs, keyLE, strLe, charListLe])
    (by simp [canon, canonPairs, sortPairs, keyLE, strLe, charListLe])).1

/-- C10: `normalize` turns every JSON array into a plain object keyed by the
array index strings (never an array), so an array embedded in a manifest is
serialized into the routing script as a JSON object. -/
theorem c10_array_becomes_object (es : List JsVal) :
    (∃ fs, normalize (.arr es) = .obj fs ∧
        List.Perm (fs.map Prod.fst)
          ((List.range es.length).map (fun i => toString i))) ∧
      (∀ xs, normalize (.arr es) ≠ .arr xs) ∧
      ∃ rest, stringify (normalize (.arr es)) = "\x7b" ++ rest := by
  refine ⟨⟨normalizePairs (sortPairs (enumPairs es)), normalize_arr es, ?_⟩, ?_, ?_⟩
  · rw [normalizePairs_eq, mapSnd_fst]
    have hperm : List.Perm ((sortPairs (enumPairs es)).map Prod.fst)
        ((enumPairs es).map Prod.fst) :=
      (List.perm_insertionSort keyLE (enumPairs es)).map Prod.fst
    have hfst : (enumPairs es).map Prod.fst
        = (List.range es.length).map (fun i => toString i) := by
      unfold enumPairs
      exact List.map_fst_zip _ es (by simp)
    rw [hfst] at hperm
    exact hperm
  · intro xs h
    rw [normalize_arr] at h
    cases h
  · rw [normalize_arr]
    exact ⟨stringifyPairs (normalizePairs (sortPairs (enumPairs es))) ++ "\x7d",
      by rw [show stringify (.obj (normalizePairs (sortPairs (enumPairs es))))
            = "\x7b" ++ stringifyPairs (normalizePairs (sortPairs (enumPairs es)))
              ++ "\x7d" from by simp [stringify], String.append_assoc]⟩

/-- C4: the routing handler scans the concatenation of dynamic routes before
static routes in order and selects the first route whose regex is present
(truthy), matches the URI under the ambient regex engine `test`, and whose
page resolves to a truthy pages-manifest entry: the first conjunct gives the
first-match characterization of a successful selection, the second that a
`none` result means no eligible route, and the third that whenever some
dynamic route is eligible the selected route is a dynamic one (so a dynamic
route always beats a static route with the same regex). -/
theorem c4_first_match_dynamic_precedence (test : String → String → Bool)
    (dyn stat : List Route) (pages : List (String × String)) (uri : String) :
    (∀ r, findMatchedRoute test dyn stat pages uri = some r →
        ∃ i, (combinedRoutes dyn stat).get? i = some r ∧
          routeMatches test pages uri r = true ∧
          ∀ j r', j < i → (combinedRoutes dyn stat).get? j = some r' →
            routeMatches test pages uri r' = false) ∧
      (findMatchedRoute test dyn stat pages uri = none →
        ∀ r ∈ combinedRoutes dyn stat, routeMatches test pages uri r = false) ∧
      ((∃ d, d ∈ dyn ∧ routeMatches test pages uri d = true) →
        ∃ d, d ∈ dyn ∧ findMatchedRoute test dyn stat pages uri = some d) := by
  refine ⟨?_, ?_, ?_⟩
  · intro r h
    exact find?_first _ _ r h
  · intro h r hr
    have := List.find?_eq_none.mp h r hr
    simpa using this
  · intro h
    exact find?_append_left _ dyn stat h

/-- Witness for C4: a dynamic route and a static route with the same regex
both match the URI, and the selected route is the dynamic one. -/
theorem c4_witness :
    ∃ d, d ∈ [Route.mk "A" (some "^/x$")] ∧
      findMatchedRoute (fun rx u => rx == "^/x$" && u == "/x")
        [Route.mk "A" (some "^/x$")] [Route.mk "B" (some "^/x$")]
        [("A", "pages/a.html"), ("B", "pages/b.html")] "/x"
        = some d :=
  (c4_first_match_dynamic_precedence _ _ _ _ _).2.2
    ⟨Route.mk "A" (some "^/x$"), by decide, by decide⟩

/-- C8: the claim says setting `wait-for-deployment` to `false` skips the
awaiting steps; in the code the Boolean coercion of the or-defaulted input
string evaluates to `true` for the input string `false` (and for every other
input), so the flag can never disable the waits. -/
theorem c8_wait_flag_always_true :
    waitForDeploymentOf "false" = true ∧ ∀ s, waitForDeploymentOf s = true := by
  constructor
  · rfl
  · intro s
    unfold waitForDeploymentOf jsStringOr jsBooleanOfString
    by_cases h : s = "" <;> simp [h]

/-- C9: a poll failure on the first poll of an awaiter is fatal (second
conjunct), but a poll failure on a later iteration — one entered after a
not-yet-ready status — is only a rejection of the inner recursive invocation,
which the `.then(resolve)` forwarding drops: the awaiter promise never
settles and the run does not abort through its error path (first and third
conjuncts, for the function and distribution pollers). -/
theorem c9_later_poll_error_never_settles :
    awaitPublish "arn:f"
        [.ok ⟨some ⟨some "Pending", some "InProgress"⟩⟩,
         .error (.mk "ServiceException" "boom" none)]
      = .lost (wrapError "Error getting Lambda Function"
          (.mk "ServiceException" "boom" none)) ∧
    awaitPublish "arn:f" [.error (.mk "ServiceException" "boom" none)]
      = .fatal (wrapError "Error getting Lambda Function"
          (.mk "ServiceException" "boom" none)) ∧
    awaitDeployment "E123"
        [.ok ⟨some ⟨some "E123", some "InProgress"⟩⟩,
         .error (.mk "ServiceException" "boom" none)]
      = .lost (wrapError "Error getting CloudFront Distribution"
          (.mk "ServiceException" "boom" none)) :=
  ⟨rfl, rfl, rfl⟩

theorem mkFunctionArn_ne_empty (functionName : String) :
    mkFunctionArn functionName ≠ "" := by
  intro h
  have hlen : (mkFunctionArn functionName).length = 0 := by rw [h]; rfl
  unfold mkFunctionArn at hlen
  rw [String.length_append] at hlen
  have hpre :
      0 < ("arn:aws:lambda:us-east-1:000000000000:function:" : String).length := by
    decide
  omega

theorem uploadLambdaRun_found (sha256 : List Nat → String)
    (fnNamePre roleArn : String) (zip : List Nat) (f : LambdaFn)
    (harn : f.arn ≠ "") (hsha : f.latestSha ≠ "") :
    uploadLambdaRun sha256 fnNamePre roleArn zip ⟨some f⟩
      = if jsTrim (sha256 zip) = jsTrim f.latestSha then
          (.ok (⟨f.arn, f.latestSha, false⟩, ⟨some f⟩),
            [.getFunction (fnNamePre ++ "origin-request") (some "$LATEST")])
        else if sha256 zip = "" then
          (.error (wrapError "Error uploading Lambda Function"
              (plainError "Invalid UpdateFunctionCodeCommand response")),
            [.getFunction (fnNamePre ++ "origin-request") (some "$LATEST"),
             .updateFunctionCode (fnNamePre ++ "origin-request") true])
        else
          (.ok (⟨f.arn, sha256 zip, true⟩,
              ⟨some ⟨f.arn, sha256 zip, sha256 zip⟩⟩),
            [.getFunction (fnNamePre ++ "origin-request") (some "$LATEST"),
             .updateFunctionCode (fnNamePre ++ "origin-request") true]) := by
  unfold uploadLambdaRun uploadLambda LambdaState.getFunction
  by_cases h : jsTrim (sha256 zip) = jsTrim f.latestSha <;>
    by_cases hz : sha256 zip = "" <;> simp [h, hz, harn, hsha]

theorem uploadLambdaRun_found_invalid (sha256 : List Nat → String)
    (fnNamePre roleArn : String) (zip : List Nat) (f : LambdaFn)
    (h : f.arn = "" ∨ f.latestSha = "") :
    uploadLambdaRun sha256 fnNamePre roleArn zip ⟨some f⟩
      = (.error (wrapError "Error uploading Lambda Function"
            (plainError
              "FunctionArn or CodeSha256 was missing from the GetFunctionCommand response")),
          [.getFunction (fnNamePre ++ "origin-request") (some "$LATEST")]) := by
  unfold uploadLambdaRun uploadLambda LambdaState.getFunction
  simp [h]

theorem uploadLambdaRun_absent (sha256 : List Nat → String)
    (fnNamePre roleArn : String) (zip : List Nat) :
    uploadLambdaRun sha256 fnNamePre roleArn zip ⟨none⟩
      = if sha256 zip = "" then
          (.error (wrapError "Error uploading Lambda Function"
              (plainError
                "FunctionArn was missing from the CreateFunctionCommand response")),
            [.getFunction (fnNamePre ++ "origin-request") (some "$LATEST"),
             .createFunction (fnNamePre ++ "origin-request") roleArn RUNTIME true])
        else
          (.ok (⟨mkFunctionArn (fnNamePre ++ "origin-request"), sha256 zip, true⟩,
              ⟨some ⟨mkFunctionArn (fnNamePre ++ "origin-request"), sha256 zip,
                sha256 zip⟩⟩),
            [.getFunction (fnNamePre ++ "origin-request") (some "$LATEST"),
             .createFunction (fnNamePre ++ "origin-request") roleArn RUNTIME true]) := by
  unfold uploadLambdaRun uploadLambda LambdaState.getFunction
  by_cases hz : sha256 zip = "" <;>
    simp [notFoundError, JsError.name, hz, mkFunctionArn_ne_empty]

/-- C1 counterexample: the claim — that for every run in which the function
exists remotely the changed/unchanged decision uses the digest resolved from
the published identifier — is false: at a state whose `$LATEST` digest equals
the local digest while the published digest differs, the reconciler reports
`changed = false`. -/
theorem c1_counterexample :
    ¬ ∀ (sha256 : List Nat → String) (fnNamePre roleArn : String)
        (zip : List Nat) (f : LambdaFn) (r : UploadResult) (st1 : LambdaState),
        (uploadLambdaRun sha256 fnNamePre roleArn zip ⟨some f⟩).1 = .ok (r, st1) →
        (r.changed = false ↔ jsTrim (sha256 zip) = jsTrim f.publishedSha) := by
  intro h
  have h2 := h (fun _ => "SHA-A") "p-" "role" [] ⟨"arn:x", "SHA-A", "SHA-B"⟩
    ⟨"arn:x", "SHA-A", false⟩ ⟨some ⟨"arn:x", "SHA-A", "SHA-B"⟩⟩ rfl
  have h3 : jsTrim "SHA-A" = jsTrim "SHA-B" := h2.mp rfl
  exact absurd h3 (by decide)

/-- C1 amended: the lookup the reconciler issues is the function name
explicitly qualified with `:$LATEST`, and for every run in which the function
exists remotely the changed/unchanged decision compares the local digest,
after trimming whitespace, against the remote digest of the `$LATEST`
unpublished pointer — not against the published identifier. -/
theorem c1_latest_digest_decides (sha256 : List Nat → String)
    (fnNamePre roleArn : String) (zip : List Nat) (f : LambdaFn)
    (harn : f.arn ≠ "") (hsha : f.latestSha ≠ "") (hz : sha256 zip ≠ "") :
    ∃ r st1,
      (uploadLambdaRun sha256 fnNamePre roleArn zip ⟨some f⟩).1 = .ok (r, st1) ∧
      (uploadLambdaRun sha256 fnNamePre roleArn zip ⟨some f⟩).2.head?
        = some (.getFunction (fnNamePre ++ "origin-request") (some "$LATEST")) ∧
      (r.changed = false ↔ jsTrim (sha256 zip) = jsTrim f.latestSha) := by
  rw [uploadLambdaRun_found sha256 fnNamePre roleArn zip f harn hsha]
  by_cases h : jsTrim (sha256 zip) = jsTrim f.latestSha
  · rw [if_pos h]
    exact ⟨⟨f.arn, f.latestSha, false⟩, ⟨some f⟩, rfl, rfl, by simp [h]⟩
  · rw [if_neg h, if_neg hz]
    exact ⟨⟨f.arn, sha256 zip, true⟩, ⟨some ⟨f.arn, sha256 zip, sha256 zip⟩⟩,
      rfl, rfl, by simp [h]⟩

/-- C2: when the remote function exists and its reported digest equals the
local payload digest after trimming, the reconciler returns the existing ARN
with `changed = false` and the only remote call is the lookup (first
conjunct); consequently a second run with the same payload on the state left
by any successful run reports `changed = false`, leaves the state unchanged,
and issues zero mutating calls (second conjunct). -/
theorem c2_noop_and_idempotent (sha256 : List Nat → String)
    (fnNamePre roleArn : String) (zip : List Nat) :
    (∀ st f, st.fn = some f → f.arn ≠ "" → f.latestSha ≠ "" →
        jsTrim (sha256 zip) = jsTrim f.latestSha →
        uploadLambdaRun sha256 fnNamePre roleArn zip st
          = (.ok (⟨f.arn, f.latestSha, false⟩, st),
              [.getFunction (fnNamePre ++ "origin-request") (some "$LATEST")])) ∧
      (∀ st r st1,
        (uploadLambdaRun sha256 fnNamePre roleArn zip st).1 = .ok (r, st1) →
        uploadLambdaRun sha256 fnNamePre roleArn zip st1
          = (.ok (⟨r.functionArn, r.codeSha, false⟩, st1),
              [.getFunction (fnNamePre ++ "origin-request") (some "$LATEST")])) := by
  constructor
  · intro st f hf harn hsha h
    obtain ⟨fn⟩ := st
    simp only at hf
    subst hf
    rw [uploadLambdaRun_found sha256 fnNamePre roleArn zip f harn hsha, if_pos h]
  · intro st r st1 hup
    obtain ⟨fn⟩ := st
    cases fn with
    | none =>
      rw [uploadLambdaRun_absent] at hup
      by_cases hz : sha256 zip = ""
      · rw [if_pos hz] at hup
        simp at hup
      · rw [if_neg hz] at hup
        simp only [Except.ok.injEq, Prod.mk.injEq] at hup
        obtain ⟨rfl, rfl⟩ := hup
        rw [uploadLambdaRun_found sha256 fnNamePre roleArn zip
          ⟨mkFunctionArn (fnNamePre ++ "origin-request"), sha256 zip, sha256 zip⟩
          (mkFunctionArn_ne_empty _) hz, if_pos rfl]
    | some f =>
      by_cases hv : f.arn = "" ∨ f.latestSha = ""
      · rw [uploadLambdaRun_found_invalid sha256 fnNamePre roleArn zip f hv] at hup
        simp at hup
      · push_neg at hv
        obtain ⟨harn, hsha⟩ := hv
        rw [uploadLambdaRun_found sha256 fnNamePre roleArn zip f harn hsha] at hup
        by_cases h : jsTrim (sha256 zip) = jsTrim f.latestSha
        · rw [if_pos h] at hup
          simp only [Except.ok.injEq, Prod.mk.injEq] at hup
          obtain ⟨rfl, rfl⟩ := hup
          rw [uploadLambdaRun_found sha256 fnNamePre roleArn zip f harn hsha,
            if_pos h]
        · rw [if_neg h] at hup
          by_cases hz : sha256 zip = ""
          · rw [if_pos hz] at hup
            simp at hup
          · rw [if_neg hz] at hup
            simp only [Except.ok.injEq, Prod.mk.injEq] at hup
            obtain ⟨rfl, rfl⟩ := hup
            rw [uploadLambdaRun_found sha256 fnNamePre roleArn zip
              ⟨f.arn, sha256 zip, sha256 zip⟩ harn hz, if_pos rfl]

/-- Witness for C2 at a concrete matching state: `changed = false`, the state
is returned unchanged, and the trace holds only the lookup. -/
theorem c2_witness :
    uploadLambdaRun (fun _ => "S") "p-" "role" [] ⟨some ⟨"arn:x", "S", "S"⟩⟩
      = (.ok (⟨"arn:x", "S", false⟩, ⟨some ⟨"arn:x", "S", "S"⟩⟩),
          [.getFunction "p-origin-request" (some "$LATEST")]) :=
  (c2_noop_and_idempotent (fun _ => "S") "p-" "role" []).1
    ⟨some ⟨"arn:x", "S", "S"⟩⟩ ⟨"arn:x", "S", "S"⟩ rfl (by decide) (by decide) rfl

/-- C5: a `ResourceNotFoundException` from the lookup is the Absent signal —
reconciliation proceeds to the create path (create call issued, new function
state, `changed = true`); every lookup error with any other name aborts
reconciliation immediately with a wrapped fatal error and no mutating call. -/
theorem c5_lookup_not_found_vs_fatal (sha256 : List Nat → String)
    (fnNamePre roleArn : String) (zip : List Nat) (st : LambdaState)
    (e : JsError) :
    (e.name = "ResourceNotFoundException" → sha256 zip ≠ "" →
        uploadLambda sha256 fnNamePre roleArn zip (.error e) st
          = (.ok (⟨mkFunctionArn (fnNamePre ++ "origin-request"), sha256 zip, true⟩,
                ⟨some ⟨mkFunctionArn (fnNamePre ++ "origin-request"), sha256 zip,
                  sha256 zip⟩⟩),
              [.getFunction (fnNamePre ++ "origin-request") (some "$LATEST"),
               .createFunction (fnNamePre ++ "origin-request") roleArn RUNTIME true])) ∧
      (e.name ≠ "ResourceNotFoundException" →
        uploadLambda sha256 fnNamePre roleArn zip (.error e) st
          = (.error (wrapError "Error uploading Lambda Function" e),
              [.getFunction (fnNamePre ++ "origin-request") (some "$LATEST")])) := by
  constructor
  · intro h hz
    unfold uploadLambda
    simp [h, hz, mkFunctionArn_ne_empty]
  · intro h
    unfold uploadLambda
    simp [h]

/-- Witness for C5: a lookup failure named `ServiceException` aborts the
reconciliation with the wrapped error, after only the lookup call. -/
theorem c5_witness :
    uploadLambda (fun _ => "S") "p-" "role" []
        (.error (.mk "ServiceException" "boom" none)) ⟨none⟩
      = (.error (wrapError "Error uploading Lambda Function"
            (.mk "ServiceException" "boom" none)),
          [.getFunction "p-origin-request" (some "$LATEST")]) :=
  (c5_lookup_not_found_vs_fatal (fun _ => "S") "p-" "role" [] ⟨none⟩
    (.mk "ServiceException" "boom" none)).2 (by decide)

/-- C6: when the distribution default behavior already holds exactly one
Lambda association with event type `origin-request` and the reconciled
function ARN, the binder returns successfully after only the config read:
no write call is issued, the configuration is returned unchanged, and the
deployment wait is skipped entirely. -/
theorem c6_binder_noop (distributionId functionArn : String) (wfd : Bool)
    (resp : GetDistConfigResult) (updateResult : Except JsError Unit)
    (polls : List (Except JsError GetDistributionResponse))
    (dc : DistributionConfig) (dcb : DefaultCacheBehavior)
    (l : LambdaAssociations) (item : LambdaAssocItem) (etag : String)
    (h1 : resp.DistributionConfig = some dc) (h2 : resp.ETag = some etag)
    (h3 : dc.DefaultCacheBehavior = some dcb)
    (h4 : dcb.LambdaFunctionAssociations = some l)
    (h5 : l.Quantity = some 1) (h6 : l.Items = some [item])
    (h7 : item.EventType = some "origin-request")
    (h8 : item.LambdaFunctionARN = some functionArn) :
    updateCloudFront distributionId functionArn wfd resp updateResult polls
      = (.ok, [.getDistributionConfig distributionId], resp) := by
  have hcur : associationsCurrent dcb.LambdaFunctionAssociations functionArn
      = true := by
    rw [h4]
    simp [associationsCurrent, h5, h6, h7, h8]
  unfold updateCloudFront
  rw [h1, h2]
  dsimp only
  rw [h3]
  dsimp only
  simp [hcur]

/-- Witness for C6 at a concrete already-bound configuration. -/
theorem c6_witness :
    updateCloudFront "E123" "arn:x" true
        ⟨some ⟨some ⟨some ⟨some 1,
          some [⟨some "origin-request", some "arn:x", some false⟩]⟩⟩⟩,
         some "ETAG"⟩
        (.ok ()) []
      = (.ok, [.getDistributionConfig "E123"],
          ⟨some ⟨some ⟨some ⟨some 1,
            some [⟨some "origin-request", some "arn:x", some false⟩]⟩⟩⟩,
           some "ETAG"⟩) :=
  c6_binder_noop "E123" "arn:x" true _ (.ok ()) [] _ _ _ _ "ETAG"
    rfl rfl rfl rfl rfl rfl rfl rfl

theorem createInvalidation_not_mem_upload (sha256 : List Nat → String)
    (fnNamePre roleArn : String) (zip : List Nat)
    (lookup : Except JsError GetFunctionResponse) (st : LambdaState)
    (i p : String) :
    RemoteCall.createInvalidation i p
      ∉ (uploadLambda sha256 fnNamePre roleArn zip lookup st).2 := by
  unfold uploadLambda
  dsimp only
  repeat' split
  all_goals simp

theorem createInvalidation_not_mem_updateCF (d a : String) (w : Bool)
    (resp : GetDistConfigResult) (u : Except JsError Unit)
    (polls : List (Except JsError GetDistributionResponse)) (i p : String) :
    RemoteCall.createInvalidation i p
      ∉ (updateCloudFront d a w resp u polls).2.1 := by
  unfold updateCloudFront
  dsimp only
  repeat' split
  all_goals simp

theorem ensurePermissions_calls (a : String) (resp : Except JsError Unit) :
    (ensurePermissions a resp).2
      = [.addPermission a "edgelambda.amazonaws.com" "AllowCloudFrontInvoke"] := by
  unfold ensurePermissions
  repeat' split
  all_goals rfl

theorem invalidateCloudFront_calls (d path : String) (w : Bool)
    (resp : Except JsError CreateInvalidationResponse)
    (polls : List (Except JsError GetDistributionResponse)) :
    (invalidateCloudFront d path w resp polls).2 = [.createInvalidation d path] := by
  unfold invalidateCloudFront
  dsimp only
  repeat' split
  all_goals rfl

/-- C7: in a run whose upload, publish wait, permission grant and binder all
complete successfully, a `CreateInvalidationCommand` appears in the run
call trace exactly when the upload reported no code change and the caller
supplied an invalidation path, and it carries exactly the supplied path. -/
theorem c7_invalidation_iff (env : RunEnv) (r : UploadResult) (st1 : LambdaState)
    (hup : (uploadLambdaRun env.sha256 env.fnNamePre env.roleArn env.zip
        env.lambdaState).1 = .ok (r, st1))
    (hpub : awaitPublish r.functionArn env.fnPolls = .done r.functionArn)
    (hperm : (ensurePermissions r.functionArn env.permResult).1 = none)
    (hcf : (updateCloudFront env.distributionId r.functionArn
        (waitForDeploymentOf env.waitInput) env.distConfig env.updateDistResult
        env.distPolls).1 = .ok) (path : String) :
    RemoteCall.createInvalidation env.distributionId path ∈ (runModel env).2
      ↔ r.changed = false ∧ parseInvalidate env.invalidateInput = some path := by
  rcases hpair : uploadLambdaRun env.sha256 env.fnNamePre env.roleArn env.zip
      env.lambdaState with ⟨res, upCalls⟩
  rw [hpair] at hup
  dsimp only at hup
  subst hup
  rcases hpermpair : ensurePermissions r.functionArn env.permResult with
    ⟨permRes, permCalls⟩
  rw [hpermpair] at hperm
  dsimp only at hperm
  subst hperm
  rcases hcfpair : updateCloudFront env.distributionId r.functionArn
      (waitForDeploymentOf env.waitInput) env.distConfig env.updateDistResult
      env.distPolls with ⟨cfRes, cfCalls, cfCfg⟩
  rw [hcfpair] at hcf
  dsimp only at hcf
  subst hcf
  have hupmem : RemoteCall.createInvalidation env.distributionId path ∉ upCalls := by
    have h := createInvalidation_not_mem_upload env.sha256 env.fnNamePre
      env.roleArn env.zip (env.lambdaState.getFunction (some "$LATEST"))
      env.lambdaState env.distributionId path
    have h2 : (uploadLambdaRun env.sha256 env.fnNamePre env.roleArn env.zip
        env.lambdaState).2 = upCalls := by rw [hpair]
    unfold uploadLambdaRun at h2
    rw [← h2]
    exact h
  have hpermmem : RemoteCall.createInvalidation env.distributionId path
      ∉ permCalls := by
    have h2 : (ensurePermissions r.functionArn env.permResult).2 = permCalls := by
      rw [hpermpair]
    rw [← h2, ensurePermissions_calls]
    simp
  have hcfmem : RemoteCall.createInvalidation env.distributionId path
      ∉ cfCalls := by
    have h2 : (updateCloudFront env.distributionId r.functionArn
        (waitForDeploymentOf env.waitInput) env.distConfig env.updateDistResult
        env.distPolls).2.1 = cfCalls := by rw [hcfpair]
    rw [← h2]
    exact createInvalidation_not_mem_updateCF _ _ _ _ _ _ _ _
  unfold runModel
  rw [hpair]
  dsimp only
  rw [hpub]
  dsimp only
  rw [hpermpair]
  dsimp only
  rw [hcfpair]
  dsimp only
  rcases hpi : parseInvalidate env.invalidateInput with _ | path2
  · simp [hupmem, hpermmem, hcfmem]
  · by_cases hch : r.changed = false
    · rw [hch]
      dsimp only
      rcases hinvpair : invalidateCloudFront env.distributionId path2
          (waitForDeploymentOf env.waitInput) env.invalidationResult
          env.invalidationPolls with ⟨invRes, invCalls⟩
      have hinvcalls : invCalls
          = [RemoteCall.createInvalidation env.distributionId path2] := by
        have h3 := invalidateCloudFront_calls env.distributionId path2
          (waitForDeploymentOf env.waitInput) env.invalidationResult
          env.invalidationPolls
        rw [hinvpair] at h3
        exact h3
      rw [if_pos rfl]
      cases invRes <;> dsimp only <;>
        simp [hinvcalls, hupmem, hpermmem, hcfmem, eq_comm]
    · have hch2 : r.changed = true := by
        cases hc : r.changed
        · exact absurd hc hch
        · rfl
      rw [hch2]
      dsimp only
      simp [hupmem, hpermmem, hcfmem, hch2]

/-- A concrete run environment: function already up to date remotely, binder
already bound, invalidation path `/x` supplied. -/
def c7Env : RunEnv :=
  ⟨fun _ => "S", "p-", "role", "E123", "/x", "",
    [], ⟨some ⟨"arn:x", "S", "P"⟩⟩,
    [.ok ⟨some ⟨some "Active", some "Successful"⟩⟩],
    .ok (),
    ⟨some ⟨some ⟨some ⟨some 1,
      some [⟨some "origin-request", some "arn:x", some false⟩]⟩⟩⟩,
     some "ETAG"⟩,
    .ok (),
    [],
    .ok ⟨some ⟨some "I1", some "InProgress"⟩⟩,
    [.ok ⟨some ⟨some "E123", some "Deployed"⟩⟩]⟩

/-- Witness for C7: in the concrete run `c7Env` — unchanged function code and
the invalidation path `/x` supplied — the invalidation for `/x` is
submitted. -/
theorem c7_witness :
    RemoteCall.createInvalidation "E123" "/x" ∈ (runModel c7Env).2 :=
  (c7_invalidation_iff c7Env ⟨"arn:x", "S", false⟩ ⟨some ⟨"arn:x", "S", "P"⟩⟩
    rfl rfl rfl rfl "/x").mpr ⟨rfl, rfl⟩

/-- Closed instance of the amended C1 statement at a concrete state. -/
theorem c1_amended_witness :
    ∃ r st1,
      (uploadLambdaRun (fun _ => "S") "p-" "role" []
          ⟨some ⟨"arn:x", "S", "P"⟩⟩).1 = .ok (r, st1) ∧
      (uploadLambdaRun (fun _ => "S") "p-" "role" []
          ⟨some ⟨"arn:x", "S", "P"⟩⟩).2.head?
        = some (.getFunction "p-origin-request" (some "$LATEST")) ∧
      (r.changed = false ↔ jsTrim "S" = jsTrim "S") :=
  c1_latest_digest_decides (fun _ => "S") "p-" "role" [] ⟨"arn:x", "S", "P"⟩
    (by decide) (by decide) (by decide)

/-- Closed instance of C8 at a further concrete input value. -/
theorem c8_witness : waitForDeploymentOf "no" = true :=
  c8_wait_flag_always_true.2 "no"

/-- Closed instance of C10 at a one-element array. -/
theorem c10_witness :
    ∃ rest, stringify (normalize (.arr [JsVal.null])) = "\x7b" ++ rest :=
  (c10_array_becomes_object [JsVal.null]).2.2

end CFAction
